import Mathlib

/-!
Verification development for the libgpiod repository slice: the dbus
daemon front-end (src/dbus/gpio-dbus.c) embedded directly, and the
reference-counted line-request / event-monitor core modelled from the
specification (its C sources are not part of the shown slice; only the
NEWS changelog references them).
-/

namespace GpioDbus

/-- GLib log-level flag bits, as in glib's GLogLevelFlags: bit 0 is
G_LOG_FLAG_RECURSION, bit 1 is G_LOG_FLAG_FATAL, and the six level bits
follow. Levels are modelled as a Nat bit mask. -/
def G_LOG_LEVEL_ERROR : Nat := 4

/-- GLib G_LOG_LEVEL_CRITICAL bit (1 << 3). -/
def G_LOG_LEVEL_CRITICAL : Nat := 8

/-- GLib G_LOG_LEVEL_WARNING bit (1 << 4). -/
def G_LOG_LEVEL_WARNING : Nat := 16

/-- GLib G_LOG_LEVEL_MESSAGE bit (1 << 5). -/
def G_LOG_LEVEL_MESSAGE : Nat := 32

/-- GLib G_LOG_LEVEL_INFO bit (1 << 6). -/
def G_LOG_LEVEL_INFO : Nat := 64

/-- GLib G_LOG_LEVEL_DEBUG bit (1 << 7). -/
def G_LOG_LEVEL_DEBUG : Nat := 128

/-- Embedding of log_level_to_priority from src/dbus/gpio-dbus.c: an
if-else chain testing the level bits from most to least severe, falling
back to syslog notice ("5") when no level bit is set. C truthiness of
`lvl & FLAG` is the disequality with zero. -/
def log_level_to_priority (lvl : Nat) : String :=
  if lvl &&& G_LOG_LEVEL_ERROR ≠ 0 then "0"
  else if lvl &&& G_LOG_LEVEL_CRITICAL ≠ 0 then "3"
  else if lvl &&& G_LOG_LEVEL_WARNING ≠ 0 then "4"
  else if lvl &&& G_LOG_LEVEL_MESSAGE ≠ 0 then "5"
  else if lvl &&& G_LOG_LEVEL_INFO ≠ 0 then "6"
  else if lvl &&& G_LOG_LEVEL_DEBUG ≠ 0 then "7"
  else "5"

/-- One GLogField entry: a key (a nullable C string, hence Option) and a
string payload value. -/
structure GLogField where
  key : Option String
  value : String
deriving DecidableEq, Repr

/-- GLogWriterOutput values returned by a GLib log writer. -/
inductive GLogWriterOutput where
  | handled
  | unhandled
deriving DecidableEq, Repr

/-- GLib's g_strcmp0: NULL-tolerant strcmp. Two NULLs compare equal,
NULL sorts before any string, otherwise ordinary string comparison
collapsed to sign. -/
def g_strcmp0 (a b : Option String) : Int :=
  match a, b with
  | none, none => 0
  | none, some _ => -1
  | some _, none => 1
  | some x, some y => if x < y then -1 else if x = y then 0 else 1

/-- Embedding of the field-scanning loop inside log_write: walk the
fields in array order and stop at the first whose key compares equal to
"MESSAGE" under g_strcmp0, returning its value. -/
def findMessage : List GLogField → Option String
  | [] => none
  | f :: rest =>
    if g_strcmp0 f.key (some "MESSAGE") = 0 then some f.value
    else findMessage rest

/-- Embedding of log_write from src/dbus/gpio-dbus.c: if no MESSAGE
field was found return G_LOG_WRITER_UNHANDLED and print nothing;
otherwise print the message prefixed with its syslog priority (the
g_printerr format string is "<%s>%s\n") and return
G_LOG_WRITER_HANDLED. The printed line is returned explicitly. -/
def log_write (lvl : Nat) (fields : List GLogField) :
    Option String × GLogWriterOutput :=
  match findMessage fields with
  | none => (none, GLogWriterOutput.unhandled)
  | some msg =>
    (some ("<" ++ log_level_to_priority lvl ++ ">" ++ msg ++ "\n"),
     GLogWriterOutput.handled)

/-- GLib G_SOURCE_CONTINUE: keep the source installed. -/
def G_SOURCE_CONTINUE : Bool := true

/-- GLib G_SOURCE_REMOVE: remove the source after this dispatch. -/
def G_SOURCE_REMOVE : Bool := false

/-- The GMainLoop as the daemon observes it: whether the loop is still
running. g_main_loop_quit clears the flag. -/
structure GMainLoop where
  running : Bool
deriving DecidableEq, Repr

/-- Embedding of g_main_loop_quit: stop the loop. -/
def g_main_loop_quit (_ : GMainLoop) : GMainLoop :=
  { running := false }

/-- The daemon's MainLoopCtx, restricted to the main-loop state the
signal handlers touch. -/
structure MainLoopCtx where
  loop : GMainLoop
deriving DecidableEq, Repr

/-- Embedding of on_sigterm: quits the main loop and asks GLib to remove
the source. -/
def on_sigterm (ctx : MainLoopCtx) : MainLoopCtx × Bool :=
  ({ loop := g_main_loop_quit ctx.loop }, G_SOURCE_REMOVE)

/-- Embedding of on_sigint: quits the main loop and asks GLib to remove
the source. -/
def on_sigint (ctx : MainLoopCtx) : MainLoopCtx × Bool :=
  ({ loop := g_main_loop_quit ctx.loop }, G_SOURCE_REMOVE)

/-- Embedding of on_sighup: leaves the context untouched and keeps the
source installed (main installs it with the comment "Ignore SIGHUP"). -/
def on_sighup (ctx : MainLoopCtx) : MainLoopCtx × Bool :=
  (ctx, G_SOURCE_CONTINUE)

/-- A GLib signal source: installed until its handler returns
G_SOURCE_REMOVE. -/
structure SignalSource where
  installed : Bool
deriving DecidableEq, Repr

/-- GLib source dispatch semantics: an installed source runs its handler
and remains installed exactly when the handler returns
G_SOURCE_CONTINUE; a removed source never fires again. -/
def dispatchSignal (handler : MainLoopCtx → MainLoopCtx × Bool)
    (src : SignalSource) (ctx : MainLoopCtx) : SignalSource × MainLoopCtx :=
  if src.installed then
    let r := handler ctx
    ({ installed := r.2 }, r.1)
  else (src, ctx)

end GpioDbus

namespace LibGpiod

/-- Modelled from the spec: the error taxonomy of section 7 for the core
library, whose C sources (the line-request, shared-handle-registry and
event-monitor implementation) are missing from the shown slice.
Interrupted and Invalidated are control results carried by the poll
result type, not members of this error type. -/
inductive GpioError where
  | notFound
  | busy
  | invalidConfig
  | permissionDenied
  | closed
  | doubleRelease
  | unsupported
  | ioError
deriving DecidableEq, Repr

/-- Modelled from the spec: per-line direction intent. -/
inductive Direction where
  | input
  | output
deriving DecidableEq, Repr

/-- Modelled from the spec: per-line edge-detection mode. -/
inductive EdgeMode where
  | none
  | rising
  | falling
  | both
deriving DecidableEq, Repr

/-- Modelled from the spec: per-line bias setting. -/
inductive Bias where
  | disabled
  | pullUp
  | pullDown
deriving DecidableEq, Repr

/-- Modelled from the spec: LineConfig, the per-line intent supplied at
request time (direction, active-low flag, bias, initial output value,
edge-detection mode). -/
structure LineConfig where
  direction : Direction
  activeLow : Bool
  bias : Bias
  outputValue : Bool
  edge : EdgeMode
deriving DecidableEq, Repr

/-- Modelled from the spec: one edge observation produced by the event
monitor. -/
structure Event where
  offset : Nat
  risingEdge : Bool
  timestampNs : Nat
  seqno : Nat
deriving DecidableEq, Repr

/-- Modelled from the spec: the per-request state the missing core
tracks: the registry's reference count, whether the kernel descriptor is
still open, how many times close() has been issued on it, the ordered
offsets and configs of the request, whether the kernel reports the
descriptor invalid (POLLNVAL after device removal), and the queued edge
events not yet drained by a poll. -/
structure ReqState where
  refCount : Nat
  fdOpen : Bool
  closeCalls : Nat
  offsets : List Nat
  configs : List LineConfig
  invalidFd : Bool
  pending : List Event
deriving DecidableEq, Repr

/-- Modelled from the spec: a LineHandle as the registry tracks it: the
request it references, the subset of offsets it may address, and whether
it has already been released. -/
structure HandleState where
  reqId : Nat
  offsets : List Nat
  released : Bool
deriving DecidableEq, Repr

/-- Modelled from the spec: the whole user-space core state over one
chip: the chip's line count, the kernel-side logical line values, the
table of line requests (index is the request id), the table of handles
the registry has handed out (index is the handle id), and a counter of
kernel request calls issued (used to observe that invalid configurations
are rejected before any kernel call). -/
structure Sys where
  lineCount : Nat
  lineValues : List Bool
  requests : List ReqState
  handles : List HandleState
  kernelCalls : Nat
deriving DecidableEq, Repr

/-- Boolean no-duplicates check on offset lists. -/
def nodupB : List Nat → Bool
  | [] => true
  | x :: xs => !(xs.contains x) && nodupB xs

/-- Modelled from the spec: the direction-incompatible combination the
request validator rejects: edge-detection requested together with output
direction on the same line. -/
def configRejected (c : LineConfig) : Bool :=
  c.edge != EdgeMode.none && c.direction == Direction.output

/-- Modelled from the spec: a line offset is busy when some open request
already covers it. -/
def offsetBusy (s : Sys) (o : Nat) : Bool :=
  s.requests.any (fun r => r.fdOpen && r.offsets.contains o)

/-- Apply a list of (index, value) updates to the line-value array in
one step; this is the atomic multi-line write primitive. -/
def writeAll (vals : List Bool) (ups : List (Nat × Bool)) : List Bool :=
  ups.foldl (fun acc p => acc.set p.1 p.2) vals

/-- Initial updates implied by a request's configs: every output line is
driven to its configured initial value. -/
def initialUpdates (offs : List Nat) (cfgs : List LineConfig) :
    List (Nat × Bool) :=
  (offs.zip cfgs).filterMap
    (fun p => if p.2.direction == Direction.output
              then some (p.1, p.2.outputValue) else Option.none)

/-- Modelled from the spec: `request` (section 4.1). Validates that the
offsets are non-empty, unique and within the chip's line count, that one
config is supplied per offset, and that no config combines edge
detection with output direction — all before the kernel call. Only then
is the single kernel request call issued (counted in kernelCalls): it
fails with Busy if a line is held, and otherwise atomically creates the
request with reference count 1 and returns the first handle covering all
offsets. -/
def request (s : Sys) (offs : List Nat) (cfgs : List LineConfig) :
    Sys × Except GpioError Nat :=
  if offs.isEmpty then (s, Except.error GpioError.invalidConfig)
  else if !nodupB offs then (s, Except.error GpioError.invalidConfig)
  else if offs.any (fun o => s.lineCount ≤ o) then
    (s, Except.error GpioError.notFound)
  else if cfgs.length != offs.length then
    (s, Except.error GpioError.invalidConfig)
  else if cfgs.any configRejected then
    (s, Except.error GpioError.invalidConfig)
  else
    let s1 : Sys := { s with kernelCalls := s.kernelCalls + 1 }
    if offs.any (fun o => offsetBusy s o) then
      (s1, Except.error GpioError.busy)
    else
      let newReq : ReqState :=
        { refCount := 1, fdOpen := true, closeCalls := 0, offsets := offs, configs := cfgs, invalidFd := false, pending := [] }
      let newHandle : HandleState :=
        { reqId := s.requests.length, offsets := offs, released := false }
      let s2 : Sys := { s1 with requests := s.requests ++ [newReq] }
      let s3 : Sys := { s2 with handles := s.handles ++ [newHandle] }
      ({ s3 with lineValues := writeAll s.lineValues (initialUpdates offs cfgs) },
       Except.ok s.handles.length)

/-- Modelled from the spec: `clone` (section 4.2): increments the
request's reference count and hands out an independent handle over the
same offsets. -/
def clone (s : Sys) (hid : Nat) : Sys × Except GpioError Nat :=
  match s.handles[hid]? with
  | Option.none => (s, Except.error GpioError.notFound)
  | some h =>
    if h.released then (s, Except.error GpioError.closed)
    else match s.requests[h.reqId]? with
      | Option.none => (s, Except.error GpioError.notFound)
      | some r =>
        if !r.fdOpen then (s, Except.error GpioError.closed)
        else
          let newHandle : HandleState :=
            { reqId := h.reqId, offsets := h.offsets, released := false }
          let s1 : Sys :=
            { s with requests := s.requests.set h.reqId { r with refCount := r.refCount + 1 } }
          ({ s1 with handles := s.handles ++ [newHandle] },
           Except.ok s.handles.length)

/-- Modelled from the spec: `derive` (section 4.2): increments the
request's reference count; fails with InvalidConfig if any offset of the
subset is not part of the request. -/
def derive (s : Sys) (rid : Nat) (subset : List Nat) :
    Sys × Except GpioError Nat :=
  match s.requests[rid]? with
  | Option.none => (s, Except.error GpioError.notFound)
  | some r =>
    if subset.any (fun o => !r.offsets.contains o) then
      (s, Except.error GpioError.invalidConfig)
    else if !r.fdOpen then (s, Except.error GpioError.closed)
    else
      let newHandle : HandleState :=
        { reqId := rid, offsets := subset, released := false }
      let s1 : Sys :=
        { s with requests := s.requests.set rid { r with refCount := r.refCount + 1 } }
      ({ s1 with handles := s.handles ++ [newHandle] },
       Except.ok s.handles.length)

/-- Modelled from the spec: `release` (section 4.2): releasing an
already-released handle is reported as DoubleRelease and changes
nothing; otherwise the handle is marked released and the count
decremented, and the decrement that reaches zero closes the kernel
descriptor exactly once (close is only issued if the descriptor is still
open). -/
def release (s : Sys) (hid : Nat) : Sys × Except GpioError Unit :=
  match s.handles[hid]? with
  | Option.none => (s, Except.error GpioError.notFound)
  | some h =>
    if h.released then (s, Except.error GpioError.doubleRelease)
    else
      let handles1 := s.handles.set hid { h with released := true }
      match s.requests[h.reqId]? with
      | Option.none => ({ s with handles := handles1 }, Except.ok ())
      | some r =>
        let newCount := r.refCount - 1
        let newClose : Nat :=
          if r.fdOpen then r.closeCalls + 1 else r.closeCalls
        let r1 : ReqState :=
          if newCount = 0 then
            { r with refCount := 0, fdOpen := false, closeCalls := newClose }
          else { r with refCount := newCount }
        let s1 : Sys := { s with handles := handles1 }
        ({ s1 with requests := s.requests.set h.reqId r1 }, Except.ok ())

/-- Modelled from the spec: `get_values` (section 4.1): reads the values
of exactly the handle's offsets in order; fails with Closed if the
handle was released or the request's descriptor is no longer open. -/
def get_values (s : Sys) (hid : Nat) : Except GpioError (List Bool) :=
  match s.handles[hid]? with
  | Option.none => Except.error GpioError.notFound
  | some h =>
    if h.released then Except.error GpioError.closed
    else match s.requests[h.reqId]? with
      | Option.none => Except.error GpioError.notFound
      | some r =>
        if !r.fdOpen then Except.error GpioError.closed
        else Except.ok (h.offsets.map (fun o => s.lineValues.getD o false))

/-- Config of a given offset within a request, by the positional
mapping of the request's offset list. -/
def lineConfigAt (r : ReqState) (o : Nat) : Option LineConfig :=
  ((r.offsets.zip r.configs).find? (fun p => p.1 == o)).map
    (fun p => p.2)

/-- Whether a given offset of a request is configured as an output. -/
def isOutputLine (r : ReqState) (o : Nat) : Bool :=
  match lineConfigAt r o with
  | some c => c.direction == Direction.output
  | Option.none => false

/-- Modelled from the spec: `set_values` (section 4.1): the value list
must be exactly as long as the handle's offset list and all addressed
lines must be outputs, else InvalidConfig with no write at all; on
success all addressed lines are updated in one atomic step. -/
def set_values (s : Sys) (hid : Nat) (vals : List Bool) :
    Sys × Except GpioError Unit :=
  match s.handles[hid]? with
  | Option.none => (s, Except.error GpioError.notFound)
  | some h =>
    if h.released then (s, Except.error GpioError.closed)
    else match s.requests[h.reqId]? with
      | Option.none => (s, Except.error GpioError.notFound)
      | some r =>
        if !r.fdOpen then (s, Except.error GpioError.closed)
        else if vals.length != h.offsets.length then
          (s, Except.error GpioError.invalidConfig)
        else if h.offsets.any (fun o => !(isOutputLine r o)) then
          (s, Except.error GpioError.invalidConfig)
        else
          ({ s with lineValues := writeAll s.lineValues (h.offsets.zip vals) },
           Except.ok ())

/-- Modelled from the spec: one entry of a poll result: either a decoded
edge event or an Invalidated notice, each tagged with the owning
request's id. -/
inductive PollEntry where
  | event (tag : Nat) (ev : Event)
  | invalidated (tag : Nat)
deriving DecidableEq, Repr

/-- Modelled from the spec: the outcome of a poll call: a successful
(possibly empty) batch of entries, or the Interrupted control result
produced when a signal handler requested cancellation — it carries no
entries, which is the "empty result" of the spec. -/
inductive PollResult where
  | done (entries : List PollEntry)
  | interrupted
deriving DecidableEq, Repr

/-- Whether a request's kernel descriptor currently reports the invalid
(POLLNVAL) status. -/
def reqInvalid (s : Sys) (rid : Nat) : Bool :=
  match s.requests[rid]? with
  | some r => r.invalidFd
  | Option.none => false

/-- The edge events currently queued on a request's descriptor. -/
def reqPending (s : Sys) (rid : Nat) : List Event :=
  match s.requests[rid]? with
  | some r => r.pending
  | Option.none => []

/-- Update the request at one index of the table by a function, leaving
the table unchanged when the index is out of range. -/
def adjust1 (f : ReqState → ReqState) (rs : List ReqState) (rid : Nat) :
    List ReqState :=
  match rs[rid]? with
  | some r => rs.set rid (f r)
  | Option.none => rs

/-- Update the requests at all the listed indices by a function. -/
def adjustAll (f : ReqState → ReqState) (rs : List ReqState)
    (rids : List Nat) : List ReqState :=
  rids.foldl (adjust1 f) rs

/-- Mark a request's descriptor closed (device was removed out from
under it). -/
def closeReq (r : ReqState) : ReqState :=
  { r with fdOpen := false }

/-- Drop a request's queued events (they were drained). -/
def drainReq (r : ReqState) : ReqState :=
  { r with pending := [] }

/-- Mark every request of the list closed. -/
def markClosedAll (rs : List ReqState) (rids : List Nat) : List ReqState :=
  adjustAll closeReq rs rids

/-- Drop the queued events of every request of the list. -/
def clearPendingAll (rs : List ReqState) (rids : List Nat) : List ReqState :=
  adjustAll drainReq rs rids

/-- Modelled from the spec: the entries a poll cycle can deliver without
blocking: an Invalidated entry for every descriptor of the set that
reports invalid status, followed by the queued events of the remaining
descriptors, drained per descriptor in kernel delivery order. -/
def immediateEntries (s : Sys) (ms : List Nat) : List PollEntry :=
  (ms.filter (fun r => reqInvalid s r)).map PollEntry.invalidated ++
    (ms.filter (fun r => !reqInvalid s r)).flatMap
      (fun r => (reqPending s r).map (PollEntry.event r))

/-- Modelled from the spec: the blocking wait inside poll, parameterised
by the caller's timeout budget and by an injected interruption schedule:
each schedule entry is a signal interruption (elapsed wait time so far,
whether the handler requested cancellation). A cancelling interruption
surfaces Interrupted immediately; any other interruption transparently
restarts the wait with the remaining budget; an exhausted schedule means
the timeout expires with zero events, a success. The second component is
the total blocking time. -/
def waitLoop : Nat → List (Nat × Bool) → PollResult × Nat
  | budget, [] => (PollResult.done [], budget)
  | budget, intr :: rest =>
    let used := min intr.1 budget
    if intr.2 then (PollResult.interrupted, used)
    else
      let w := waitLoop (budget - used) rest
      (w.1, used + w.2)

/-- Modelled from the spec: `poll` (section 4.3). Descriptors reporting
invalid status are removed from the set, their owning requests are
marked closed, and each is surfaced as an Invalidated entry; readable
descriptors are drained. If that yields any entry the call returns at
once; otherwise it blocks in waitLoop under the caller's timeout and
interruption schedule. Returns the new system state, the new monitor
set, the result and the total blocking time. -/
def poll (s : Sys) (ms : List Nat) (timeout : Nat)
    (sched : List (Nat × Bool)) : Sys × List Nat × PollResult × Nat :=
  let inv := ms.filter (fun r => reqInvalid s r)
  let ms1 := ms.filter (fun r => !reqInvalid s r)
  let s1 : Sys :=
    { s with requests := clearPendingAll (markClosedAll s.requests inv) ms1 }
  let entries := immediateEntries s ms
  if entries.isEmpty then
    let w := waitLoop timeout sched
    (s1, ms1, w.1, w.2)
  else (s1, ms1, PollResult.done entries, 0)

/-- Modelled from the spec: `remove` (section 4.3): removes a request's
descriptor from the monitor set; safe even if the request was already
marked closed by invalidation. -/
def removeFromSet (ms : List Nat) (rid : Nat) : List Nat :=
  ms.filter (fun r => r != rid)

/-- Live handles currently referencing a request: the quantity the
registry's reference count must dominate. -/
def liveHandleCount (hs : List HandleState) (rid : Nat) : Nat :=
  hs.countP (fun h => h.reqId == rid && !h.released)

/-- What the registry invariant requires of one request given the
number of live handles referencing it: the reference count equals that
number, the descriptor is open exactly while the count is positive, and
close() has been issued exactly once if and only if the descriptor is no
longer open. -/
def reqGood (r : ReqState) (live : Nat) : Prop :=
  r.refCount = live ∧
  (r.fdOpen ↔ 0 < r.refCount) ∧
  r.closeCalls = (if r.fdOpen then 0 else 1)

instance (r : ReqState) (live : Nat) : Decidable (reqGood r live) := by
  unfold reqGood
  infer_instance

/-- The registry invariant of section 4.2: every handle points at an
existing request, and every request satisfies reqGood with respect to
the live handles referencing it. -/
def refInv (s : Sys) : Prop :=
  (∀ h ∈ s.handles, h.reqId < s.requests.length) ∧
  (∀ rid r, s.requests[rid]? = some r →
    reqGood r (liveHandleCount s.handles rid))

/-- An empty system over a chip with the given number of lines, all
initially low. -/
def initSys (lineCount : Nat) : Sys :=
  { lineCount := lineCount, lineValues := List.replicate lineCount false, requests := [], handles := [], kernelCalls := 0 }

/-- Modelled from the spec: simulated device removal — the kernel marks
a request's descriptor invalid, which the next poll must surface. -/
def invalidateReq (s : Sys) (rid : Nat) : Sys :=
  { s with requests := adjust1 (fun r => { r with invalidFd := true }) s.requests rid }

/-- A sample output configuration driving the line high. -/
def cfgOutHi : LineConfig :=
  { direction := Direction.output, activeLow := false, bias := Bias.disabled, outputValue := true, edge := EdgeMode.none }

/-- A sample input configuration with rising-edge detection. -/
def cfgInRise : LineConfig :=
  { direction := Direction.input, activeLow := false, bias := Bias.disabled, outputValue := false, edge := EdgeMode.none }

/-- The rejected combination: output direction together with
edge-detection on the same line. -/
def cfgOutRise : LineConfig :=
  { direction := Direction.output, activeLow := false, bias := Bias.disabled, outputValue := false, edge := EdgeMode.rising }

/-- Sample scenario: one request over lines 0 and 2 of a 4-line chip,
with its initial handle 0. -/
def sysA : Sys := (request (initSys 4) [0, 2] [cfgOutHi, cfgOutHi]).1

/-- Sample scenario: sysA after cloning handle 0, so the request has two
handles and reference count 2. -/
def sysB : Sys := (clone sysA 0).1

/-- Sample scenario: sysB after releasing handle 0: reference count back
to 1, descriptor still open, handle 0 dead. -/
def sysC : Sys := (release sysB 0).1

/-- Sample scenario: sysA after the underlying device was removed — the
descriptor now reports invalid status. -/
def sysInv : Sys := invalidateReq sysA 0

end LibGpiod

namespace GpioDbus

/-- C10: the daemon's signal dispositions differ by signal: the SIGHUP
handler always returns G_SOURCE_CONTINUE, changes nothing and stays
installed, while the SIGTERM and SIGINT handlers each quit the main loop
and return G_SOURCE_REMOVE, so once dispatched their source is removed
and they never fire again. -/
theorem claim_C10_signal_dispositions (ctx : MainLoopCtx) :
    (on_sighup ctx).2 = G_SOURCE_CONTINUE ∧
    (on_sighup ctx).1 = ctx ∧
    (dispatchSignal on_sighup { installed := true } ctx).1.installed = true ∧
    (dispatchSignal on_sighup { installed := true } ctx).2 = ctx ∧
    (on_sigterm ctx).2 = G_SOURCE_REMOVE ∧
    (on_sigterm ctx).1.loop.running = false ∧
    (on_sigint ctx).2 = G_SOURCE_REMOVE ∧
    (on_sigint ctx).1.loop.running = false ∧
    (dispatchSignal on_sigterm { installed := true } ctx).1.installed = false ∧
    (dispatchSignal on_sigterm { installed := true } ctx).2.loop.running = false ∧
    (∀ ctx2, dispatchSignal on_sigterm
        (dispatchSignal on_sigterm { installed := true } ctx).1 ctx2 =
      ((dispatchSignal on_sigterm { installed := true } ctx).1, ctx2)) ∧
    (dispatchSignal on_sigint { installed := true } ctx).1.installed = false ∧
    (dispatchSignal on_sigint { installed := true } ctx).2.loop.running = false ∧
    (∀ ctx2, dispatchSignal on_sigint
        (dispatchSignal on_sigint { installed := true } ctx).1 ctx2 =
      ((dispatchSignal on_sigint { installed := true } ctx).1, ctx2)) := by
  refine ⟨rfl, rfl, rfl, rfl, rfl, rfl, rfl, rfl, rfl, rfl, ?_, rfl, rfl, ?_⟩
  · intro ctx2
    rfl
  · intro ctx2
    rfl

/-- A Nat masked with a power of two is nonzero exactly when the
corresponding bit is set. -/
theorem and_two_pow_ne_zero_iff (n i : Nat) :
    n &&& 2 ^ i ≠ 0 ↔ n.testBit i = true := by
  constructor
  · intro h
    by_contra hb
    apply h
    apply Nat.eq_of_testBit_eq
    intro j
    rw [Nat.zero_testBit, Nat.testBit_and]
    rcases eq_or_ne i j with rfl | hij
    · simp only [Bool.not_eq_true] at hb
      simp [hb]
    · simp [Nat.testBit_two_pow_of_ne hij]
  · intro h h0
    have hbit := congrArg (fun m => m.testBit i) h0
    simp only [Nat.testBit_and, h, Nat.testBit_two_pow_self,
      Nat.zero_testBit, Bool.and_self] at hbit
    exact Bool.noConfusion hbit

/-- C8: log_level_to_priority is total with range a subset of the six
syslog strings; when several level bits are set the most severe wins
(ERROR before CRITICAL before WARNING before MESSAGE before INFO before
DEBUG); with none of the six level bits set it falls back to "5". The
level bits are bits 2 through 7 of the GLogLevelFlags mask. -/
theorem claim_C8_log_level_to_priority (lvl : Nat) :
    log_level_to_priority lvl ∈ ["0", "3", "4", "5", "6", "7"] ∧
    (lvl.testBit 2 = true → log_level_to_priority lvl = "0") ∧
    (lvl.testBit 2 = false → lvl.testBit 3 = true →
      log_level_to_priority lvl = "3") ∧
    (lvl.testBit 2 = false → lvl.testBit 3 = false → lvl.testBit 4 = true →
      log_level_to_priority lvl = "4") ∧
    (lvl.testBit 2 = false → lvl.testBit 3 = false → lvl.testBit 4 = false →
      lvl.testBit 5 = true → log_level_to_priority lvl = "5") ∧
    (lvl.testBit 2 = false → lvl.testBit 3 = false → lvl.testBit 4 = false →
      lvl.testBit 5 = false → lvl.testBit 6 = true →
      log_level_to_priority lvl = "6") ∧
    (lvl.testBit 2 = false → lvl.testBit 3 = false → lvl.testBit 4 = false →
      lvl.testBit 5 = false → lvl.testBit 6 = false → lvl.testBit 7 = true →
      log_level_to_priority lvl = "7") ∧
    (lvl.testBit 2 = false → lvl.testBit 3 = false → lvl.testBit 4 = false →
      lvl.testBit 5 = false → lvl.testBit 6 = false → lvl.testBit 7 = false →
      log_level_to_priority lvl = "5") := by
  have h2 := and_two_pow_ne_zero_iff lvl 2
  have h3 := and_two_pow_ne_zero_iff lvl 3
  have h4 := and_two_pow_ne_zero_iff lvl 4
  have h5 := and_two_pow_ne_zero_iff lvl 5
  have h6 := and_two_pow_ne_zero_iff lvl 6
  have h7 := and_two_pow_ne_zero_iff lvl 7
  norm_num at h2 h3 h4 h5 h6 h7
  refine ⟨?_, ?_, ?_, ?_, ?_, ?_, ?_, ?_⟩
  · unfold log_level_to_priority
    split
    · simp
    · split
      · simp
      · split
        · simp
        · split
          · simp
          · split
            · simp
            · split <;> simp
  · intro b2
    simp [log_level_to_priority, G_LOG_LEVEL_ERROR, h2, b2]
  · intro b2 b3
    simp [log_level_to_priority, G_LOG_LEVEL_ERROR, G_LOG_LEVEL_CRITICAL,
      h2, h3, b2, b3]
  · intro b2 b3 b4
    simp [log_level_to_priority, G_LOG_LEVEL_ERROR, G_LOG_LEVEL_CRITICAL,
      G_LOG_LEVEL_WARNING, h2, h3, h4, b2, b3, b4]
  · intro b2 b3 b4 b5
    simp [log_level_to_priority, G_LOG_LEVEL_ERROR, G_LOG_LEVEL_CRITICAL,
      G_LOG_LEVEL_WARNING, G_LOG_LEVEL_MESSAGE, h2, h3, h4, h5, b2, b3, b4, b5]
  · intro b2 b3 b4 b5 b6
    simp [log_level_to_priority, G_LOG_LEVEL_ERROR, G_LOG_LEVEL_CRITICAL,
      G_LOG_LEVEL_WARNING, G_LOG_LEVEL_MESSAGE, G_LOG_LEVEL_INFO,
      h2, h3, h4, h5, h6, b2, b3, b4, b5, b6]
  · intro b2 b3 b4 b5 b6 b7
    simp [log_level_to_priority, G_LOG_LEVEL_ERROR, G_LOG_LEVEL_CRITICAL,
      G_LOG_LEVEL_WARNING, G_LOG_LEVEL_MESSAGE, G_LOG_LEVEL_INFO,
      G_LOG_LEVEL_DEBUG, h2, h3, h4, h5, h6, h7, b2, b3, b4, b5, b6, b7]
  · intro b2 b3 b4 b5 b6 b7
    simp [log_level_to_priority, G_LOG_LEVEL_ERROR, G_LOG_LEVEL_CRITICAL,
      G_LOG_LEVEL_WARNING, G_LOG_LEVEL_MESSAGE, G_LOG_LEVEL_INFO,
      G_LOG_LEVEL_DEBUG, h2, h3, h4, h5, h6, h7, b2, b3, b4, b5, b6, b7]

/-- The NULL-tolerant comparison against "MESSAGE" succeeds exactly on
the key some "MESSAGE". -/
theorem g_strcmp0_eq_zero_iff (a : Option String) :
    g_strcmp0 a (some "MESSAGE") = 0 ↔ a = some "MESSAGE" := by
  cases a with
  | none => simp [g_strcmp0]
  | some x =>
    by_cases hlt : x < "MESSAGE"
    · have hx : x ≠ "MESSAGE" := by
        rintro rfl
        exact lt_irrefl _ hlt
      simp [g_strcmp0, hlt, hx]
    · by_cases heq : x = "MESSAGE"
      · simp [g_strcmp0, hlt, heq]
      · simp [g_strcmp0, hlt, heq]

/-- The field scan comes back empty exactly when no field's key is
"MESSAGE". -/
theorem findMessage_eq_none_iff (fields : List GLogField) :
    findMessage fields = Option.none ↔
      ∀ f ∈ fields, f.key ≠ some "MESSAGE" := by
  induction fields with
  | nil => simp [findMessage]
  | cons f rest ih =>
    by_cases h : g_strcmp0 f.key (some "MESSAGE") = 0
    · have hk := (g_strcmp0_eq_zero_iff _).mp h
      simp only [findMessage]
      rw [if_pos h]
      simp [hk]
    · have hk : f.key ≠ some "MESSAGE" := fun hc =>
        h ((g_strcmp0_eq_zero_iff _).mpr hc)
      simp only [findMessage]
      rw [if_neg h]
      simp [ih, hk]

/-- The field scan returns the value of the first field in array order
whose key is "MESSAGE". -/
theorem findMessage_first (l1 : List GLogField) (f : GLogField)
    (l2 : List GLogField) (hl : ∀ g ∈ l1, g.key ≠ some "MESSAGE")
    (hf : f.key = some "MESSAGE") :
    findMessage (l1 ++ f :: l2) = some f.value := by
  induction l1 with
  | nil =>
    have : g_strcmp0 f.key (some "MESSAGE") = 0 :=
      (g_strcmp0_eq_zero_iff _).mpr hf
    simp [findMessage, this]
  | cons g rest ih =>
    have hg : g.key ≠ some "MESSAGE" := hl g (by simp)
    have hc : ¬g_strcmp0 g.key (some "MESSAGE") = 0 := fun hc =>
      hg ((g_strcmp0_eq_zero_iff _).mp hc)
    simp only [List.cons_append, findMessage, hc, if_false]
    exact ih (fun g2 hg2 => hl g2 (by simp [hg2]))

/-- C9: log_write returns G_LOG_WRITER_UNHANDLED (and prints nothing)
exactly when no field has key "MESSAGE"; otherwise it prints the value
of the first field in array order whose key is "MESSAGE", prefixed with
the priority from log_level_to_priority, and returns
G_LOG_WRITER_HANDLED. -/
theorem claim_C9_log_write (lvl : Nat) (fields : List GLogField) :
    ((log_write lvl fields).2 = GLogWriterOutput.unhandled ↔
      ∀ f ∈ fields, f.key ≠ some "MESSAGE") ∧
    ((log_write lvl fields).2 = GLogWriterOutput.unhandled →
      (log_write lvl fields).1 = Option.none) ∧
    (∀ l1 f l2, fields = l1 ++ f :: l2 →
      (∀ g ∈ l1, g.key ≠ some "MESSAGE") → f.key = some "MESSAGE" →
      log_write lvl fields =
        (some ("<" ++ log_level_to_priority lvl ++ ">" ++ f.value ++ "\n"),
         GLogWriterOutput.handled)) := by
  refine ⟨?_, ?_, ?_⟩
  · rw [← findMessage_eq_none_iff]
    unfold log_write
    cases h : findMessage fields <;> simp [h]
  · intro hu
    revert hu
    unfold log_write
    cases h : findMessage fields <;> simp [h]
  · intro l1 f l2 hsplit hl hf
    subst hsplit
    unfold log_write
    rw [findMessage_first l1 f l2 hl hf]

/-- C9 witness: with the MESSAGE field second in the array and level
mask 32 (MESSAGE level), log_write prints the priority-prefixed line and
reports it handled. -/
theorem claim_C9_witness :
    log_write 32
        [{ key := some "PRIORITY", value := "4" },
         { key := some "MESSAGE", value := "hello" }] =
      (some "<5>hello\n", GLogWriterOutput.handled) := by
  have h := (claim_C9_log_write 32
      [{ key := some "PRIORITY", value := "4" },
       { key := some "MESSAGE", value := "hello" }]).2.2
    [{ key := some "PRIORITY", value := "4" }]
    { key := some "MESSAGE", value := "hello" } [] rfl (by decide) rfl
  exact h

/-- C8 witness: on level mask 12 (ERROR and CRITICAL both set) the most
severe bit wins and the priority is "0"; on mask 3 (no level bit set)
the fallback is "5". -/
theorem claim_C8_witness :
    log_level_to_priority 12 = "0" ∧ log_level_to_priority 3 = "5" :=
  ⟨(claim_C8_log_level_to_priority 12).2.1 (by decide),
   (claim_C8_log_level_to_priority 3).2.2.2.2.2.2.2 (by decide) (by decide)
     (by decide) (by decide) (by decide) (by decide)⟩

end GpioDbus

namespace LibGpiod

/-- C5: releasing an already-released handle reports DoubleRelease and
leaves the whole system state — in particular the shared reference count
— unchanged, so the request stays open exactly as long as the remaining
outstanding handles imply. -/
theorem claim_C5_double_release (s : Sys) (hid : Nat) (h : HandleState)
    (hh : s.handles[hid]? = some h) (hr : h.released = true) :
    release s hid = (s, Except.error GpioError.doubleRelease) := by
  unfold release
  rw [hh]
  simp [hr]

/-- C5 witness: in sysC handle 0 was already released; releasing it a
second time yields DoubleRelease and no state change. -/
theorem claim_C5_witness :
    release sysC 0 = (sysC, Except.error GpioError.doubleRelease) :=
  claim_C5_double_release sysC 0
    { reqId := 0, offsets := [0, 2], released := true } rfl rfl

/-- C4: a request whose configuration combines edge detection with
output direction on a line fails with InvalidConfig before any kernel
call is issued (the kernel-call counter and the request table are
untouched and the state is exactly the old one), and an immediately
subsequent request with the same offsets and a valid configuration
succeeds. -/
theorem claim_C4_invalid_config_rejected (s : Sys) (offs : List Nat)
    (cfgs cfgs2 : List LineConfig)
    (h1 : offs.isEmpty = false) (h2 : nodupB offs = true)
    (h3 : offs.any (fun o => s.lineCount ≤ o) = false)
    (h4 : cfgs.length = offs.length)
    (h5 : cfgs.any configRejected = true) :
    request s offs cfgs = (s, Except.error GpioError.invalidConfig) ∧
    (request s offs cfgs).1.kernelCalls = s.kernelCalls ∧
    (request s offs cfgs).1.requests = s.requests ∧
    (cfgs2.length = offs.length → cfgs2.any configRejected = false →
      offs.any (fun o => offsetBusy s o) = false →
      (request s offs cfgs2).2 = Except.ok s.handles.length) := by
  have hmain : request s offs cfgs = (s, Except.error GpioError.invalidConfig) := by
    simp [request, h1, h2, h3, h4, h5]
  refine ⟨hmain, by rw [hmain], by rw [hmain], ?_⟩
  intro g1 g2 g3
  simp [request, h1, h2, h3, g1, g2, g3]

/-- C4 witness: on a fresh 4-line chip the edge-plus-output request for
lines 0 and 2 is rejected with the state unchanged, and the corrected
request on the same offsets succeeds. -/
theorem claim_C4_witness :
    request (initSys 4) [0, 2] [cfgOutRise, cfgOutHi] =
      (initSys 4, Except.error GpioError.invalidConfig) ∧
    (request (initSys 4) [0, 2] [cfgInRise, cfgOutHi]).2 = Except.ok 0 := by
  have h := claim_C4_invalid_config_rejected (initSys 4) [0, 2]
    [cfgOutRise, cfgOutHi] [cfgInRise, cfgOutHi] rfl rfl rfl rfl rfl
  exact ⟨h.1, h.2.2.2 rfl rfl rfl⟩

/-- The blocking wait never spends more than the caller's timeout
budget, however many transparent restarts happen. -/
theorem waitLoop_elapsed_le (sched : List (Nat × Bool)) :
    ∀ budget, (waitLoop budget sched).2 ≤ budget := by
  induction sched with
  | nil =>
    intro b
    simp [waitLoop]
  | cons p rest ih =>
    intro b
    simp only [waitLoop]
    split
    · simp only []
      omega
    · have h1 := ih (b - min p.1 b)
      simp only []
      omega

/-- A successful waitLoop outcome always carries the empty batch: events
arrive only through the immediate phase of poll. -/
theorem waitLoop_done_empty (sched : List (Nat × Bool)) :
    ∀ budget entries,
      (waitLoop budget sched).1 = PollResult.done entries → entries = [] := by
  induction sched with
  | nil =>
    intro b e h
    simp [waitLoop] at h
    exact h
  | cons p rest ih =>
    intro b e h
    simp only [waitLoop] at h
    split at h
    · exact absurd h (by simp)
    · exact ih _ _ h

/-- With no cancelling interruption in the schedule, the wait always
ends in a successful empty batch (timeout expiry is not an error). -/
theorem waitLoop_no_cancel (sched : List (Nat × Bool)) :
    ∀ budget, (∀ p ∈ sched, p.2 = false) →
      (waitLoop budget sched).1 = PollResult.done [] := by
  induction sched with
  | nil =>
    intro b _
    rfl
  | cons p rest ih =>
    intro b hs
    have hp : p.2 = false := hs p (by simp)
    simp only [waitLoop, hp]
    simp only [Bool.false_eq_true, if_false]
    exact ih _ (fun q hq => hs q (by simp [hq]))

/-- C3: a poll interrupted by a signal behaves by the caller-supplied
cancellation policy: a cancelling interruption makes poll return the
Interrupted control result (which carries no entries) after only the
wait spent so far, a non-cancelling interruption transparently restarts
the wait with the remaining timeout budget, and in every case the total
blocking time never exceeds the requested timeout. -/
theorem claim_C3_signal_policy (s : Sys) (ms : List Nat) (timeout : Nat)
    (sched : List (Nat × Bool)) :
    (poll s ms timeout sched).2.2.2 ≤ timeout ∧
    (immediateEntries s ms = [] → ∀ e rest, sched = (e, true) :: rest →
      (poll s ms timeout sched).2.2.1 = PollResult.interrupted ∧
      (poll s ms timeout sched).2.2.2 = min e timeout) ∧
    (∀ e rest,
      waitLoop timeout ((e, false) :: rest) =
        ((waitLoop (timeout - min e timeout) rest).1,
         min e timeout + (waitLoop (timeout - min e timeout) rest).2)) := by
  refine ⟨?_, ?_, ?_⟩
  · by_cases he : (immediateEntries s ms).isEmpty
    · simp only [poll, he, if_true]
      exact waitLoop_elapsed_le sched timeout
    · simp [poll, he]
  · intro h0 e rest hs
    subst hs
    have he : (immediateEntries s ms).isEmpty = true := by simp [h0]
    simp [poll, he, waitLoop]
  · intro e rest
    simp [waitLoop]

/-- C3 witness: with no immediate entries and a cancelling interruption
after 2 time units of a 5-unit budget, poll returns Interrupted having
blocked only min 2 5 units. -/
theorem claim_C3_witness :
    (poll sysA [] 5 [(2, true)]).2.2.1 = PollResult.interrupted ∧
    (poll sysA [] 5 [(2, true)]).2.2.2 = min 2 5 :=
  (claim_C3_signal_policy sysA [] 5 [(2, true)]).2.1 rfl 2 [] rfl

/-- C7: a poll on which the timeout elapses with zero events — in
particular on a monitor set with no armed descriptors, which produces no
immediate entries — returns the empty sequence as a success result,
never an error, and never blocks past the timeout. -/
theorem claim_C7_timeout_empty (s : Sys) (ms : List Nat) (timeout : Nat)
    (sched : List (Nat × Bool)) :
    (∀ s2 : Sys, immediateEntries s2 [] = []) ∧
    (immediateEntries s ms = [] → (∀ p ∈ sched, p.2 = false) →
      (poll s ms timeout sched).2.2.1 = PollResult.done [] ∧
      (poll s ms timeout sched).2.2.2 ≤ timeout) := by
  refine ⟨fun s2 => rfl, ?_⟩
  intro h0 hnc
  have he : (immediateEntries s ms).isEmpty = true := by simp [h0]
  constructor
  · simp only [poll, he, if_true]
    exact waitLoop_no_cancel sched timeout hnc
  · simp only [poll, he, if_true]
    exact waitLoop_elapsed_le sched timeout

/-- Atomic multi-line writes keep the array length. -/
theorem writeAll_length (ups : List (Nat × Bool)) :
    ∀ vals, (writeAll vals ups).length = vals.length := by
  induction ups with
  | nil =>
    intro v
    rfl
  | cons u ups ih =>
    intro v
    have h1 : writeAll v (u :: ups) = writeAll (v.set u.1 u.2) ups := rfl
    rw [h1, ih, List.length_set]

/-- Lines not addressed by the update list are unchanged by an atomic
multi-line write. -/
theorem writeAll_getElem?_notMem (ups : List (Nat × Bool)) :
    ∀ (vals : List Bool) (o : Nat), o ∉ ups.map Prod.fst →
      (writeAll vals ups)[o]? = vals[o]? := by
  induction ups with
  | nil =>
    intro v o _
    rfl
  | cons u ups ih =>
    intro v o ho
    simp only [List.map_cons, List.mem_cons, not_or] at ho
    have h1 : writeAll v (u :: ups) = writeAll (v.set u.1 u.2) ups := rfl
    rw [h1, ih _ _ ho.2, List.getElem?_set_ne (Ne.symm ho.1)]

/-- Every addressed line of an atomic multi-line write with pairwise
distinct, in-range indices ends holding its requested value. -/
theorem writeAll_getElem?_mem (ups : List (Nat × Bool)) :
    ∀ (vals : List Bool) (k : Nat) (v : Bool),
      (ups.map Prod.fst).Nodup → (k, v) ∈ ups → k < vals.length →
      (writeAll vals ups)[k]? = some v := by
  induction ups with
  | nil =>
    intro _ k v _ hmem _
    exact absurd hmem (List.not_mem_nil _)
  | cons u ups ih =>
    intro vals k v hnd hmem hk
    obtain ⟨uk, uv⟩ := u
    have h1 : writeAll vals ((uk, uv) :: ups) =
        writeAll (vals.set uk uv) ups := rfl
    simp only [List.map_cons, List.nodup_cons] at hnd
    rcases List.mem_cons.mp hmem with heq | htail
    · obtain ⟨hk1, hk2⟩ := Prod.mk.injEq .. ▸ heq
      subst hk1
      subst hk2
      rw [h1, writeAll_getElem?_notMem ups _ k hnd.1]
      exact List.getElem?_set_self hk
    · rw [h1]
      exact ih _ k v hnd.2 htail (by rw [List.length_set]; exact hk)

/-- C6: set_values with a wrong-length value sequence fails with
InvalidConfig; on any failure no write at all happens (the state is the
old one, so unaffected lines are trivially unchanged); and on success
the write is atomic across the addressed set: every addressed line holds
its new value and every line outside the handle's set is unchanged. -/
theorem claim_C6_set_values_atomic (s : Sys) (hid : Nat) (vals : List Bool)
    (h : HandleState) (hh : s.handles[hid]? = some h) :
    (h.released = false →
      ∀ r, s.requests[h.reqId]? = some r → r.fdOpen = true →
      vals.length ≠ h.offsets.length →
      set_values s hid vals = (s, Except.error GpioError.invalidConfig)) ∧
    (∀ e, (set_values s hid vals).2 = Except.error e →
      (set_values s hid vals).1 = s) ∧
    ((set_values s hid vals).2 = Except.ok () →
      h.offsets.Nodup → (∀ o ∈ h.offsets, o < s.lineValues.length) →
      (∀ i (hio : i < h.offsets.length) (hiv : i < vals.length),
        ((set_values s hid vals).1.lineValues)[h.offsets.get ⟨i, hio⟩]? =
          some (vals.get ⟨i, hiv⟩)) ∧
      (∀ o, o ∉ h.offsets →
        ((set_values s hid vals).1.lineValues)[o]? = s.lineValues[o]?)) := by
  refine ⟨?_, ?_, ?_⟩
  · intro hrel r hr hfd hlen
    simp [set_values, hh, hrel, hr, hfd, bne_iff_ne, hlen]
  · intro e he
    by_cases hrel : h.released
    · simp [set_values, hh, hrel]
    · cases hr : s.requests[h.reqId]? with
      | none => simp [set_values, hh, hrel, hr]
      | some r =>
        by_cases hfd : r.fdOpen
        · by_cases hlen : vals.length = h.offsets.length
          · by_cases hout : h.offsets.any (fun o => !(isOutputLine r o))
            · simp [set_values, hh, hrel, hr, hfd, hlen, hout]
            · simp [set_values, hh, hrel, hr, hfd, hlen, hout] at he
          · simp [set_values, hh, hrel, hr, hfd, bne_iff_ne, hlen]
        · simp [set_values, hh, hrel, hr, hfd]
  · intro hok hnd hbound
    by_cases hrel : h.released
    · simp [set_values, hh, hrel] at hok
    · cases hr : s.requests[h.reqId]? with
      | none => simp [set_values, hh, hrel, hr] at hok
      | some r =>
        by_cases hfd : r.fdOpen
        · by_cases hlen : vals.length = h.offsets.length
          · by_cases hout : h.offsets.any (fun o => !(isOutputLine r o))
            · simp [set_values, hh, hrel, hr, hfd, hlen, hout] at hok
            · have hres : (set_values s hid vals).1.lineValues =
                  writeAll s.lineValues (h.offsets.zip vals) := by
                simp [set_values, hh, hrel, hr, hfd, hlen, hout]
              have hmapfst : (h.offsets.zip vals).map Prod.fst = h.offsets :=
                List.map_fst_zip _ _ (by rw [hlen])
              rw [hres]
              constructor
              · intro i hio hiv
                have hzlen : (h.offsets.zip vals).length = h.offsets.length := by
                  rw [List.length_zip, hlen, Nat.min_self]
                have hi2 : i < (h.offsets.zip vals).length := by omega
                have hz := @List.getElem_zip _ _ h.offsets vals i hi2
                simp only [List.get_eq_getElem]
                apply writeAll_getElem?_mem
                · rw [hmapfst]
                  exact hnd
                · rw [← hz]
                  exact List.getElem_mem _
                · exact hbound _ (List.getElem_mem hio)
              · intro o ho
                apply writeAll_getElem?_notMem
                rw [hmapfst]
                exact ho
          · simp [set_values, hh, hrel, hr, hfd, bne_iff_ne, hlen] at hok
        · simp [set_values, hh, hrel, hr, hfd] at hok

/-- C6 witness: on sysA the handle addresses two lines, so writing a
single value fails with InvalidConfig and no write. -/
theorem claim_C6_witness :
    set_values sysA 0 [true] = (sysA, Except.error GpioError.invalidConfig) :=
  (claim_C6_set_values_atomic sysA 0 [true]
      { reqId := 0, offsets := [0, 2], released := false } rfl).1 rfl
    { refCount := 1, fdOpen := true, closeCalls := 0, offsets := [0, 2],
      configs := [cfgOutHi, cfgOutHi], invalidFd := false, pending := [] }
    rfl rfl (by decide)

/-- C7 witness: polling an empty monitor set for 7 units with one
incidental (non-cancelling) interruption returns the empty batch as a
success within the timeout. -/
theorem claim_C7_witness :
    (poll sysA [] 7 [(3, false)]).2.2.1 = PollResult.done [] ∧
    (poll sysA [] 7 [(3, false)]).2.2.2 ≤ 7 :=
  (claim_C7_timeout_empty sysA [] 7 [(3, false)]).2 rfl (by decide)

/-- Pointwise description of a single-index table update. -/
theorem adjust1_getElem? (f : ReqState → ReqState) (rs : List ReqState)
    (rid j : Nat) :
    (adjust1 f rs rid)[j]? =
      if rid = j then (rs[j]?).map f else rs[j]? := by
  unfold adjust1
  cases hrs : rs[rid]? with
  | none =>
    rcases eq_or_ne rid j with rfl | hne
    · simp [hrs]
    · simp [hne]
  | some r =>
    have hlt : rid < rs.length := (List.getElem?_eq_some.mp hrs).1
    rcases eq_or_ne rid j with rfl | hne
    · rw [List.getElem?_set_self hlt, hrs]
      simp
    · rw [List.getElem?_set_ne hne]
      simp [hne]

/-- Indices outside the update list are untouched by a bulk table
update. -/
theorem adjustAll_getElem?_notMem (f : ReqState → ReqState)
    (l : List Nat) :
    ∀ (rs : List ReqState) (j : Nat), j ∉ l →
      (adjustAll f rs l)[j]? = rs[j]? := by
  induction l with
  | nil =>
    intro rs j _
    rfl
  | cons a l ih =>
    intro rs j hj
    simp only [List.mem_cons, not_or] at hj
    have h1 : adjustAll f rs (a :: l) = adjustAll f (adjust1 f rs a) l := rfl
    rw [h1, ih _ _ hj.2, adjust1_getElem?, if_neg (Ne.symm hj.1)]

/-- Indices inside the update list come out with the (idempotent)
update applied. -/
theorem adjustAll_getElem?_mem (f : ReqState → ReqState)
    (hf : ∀ r, f (f r) = f r) (l : List Nat) :
    ∀ (rs : List ReqState) (j : Nat), j ∈ l →
      (adjustAll f rs l)[j]? = (rs[j]?).map f := by
  induction l with
  | nil =>
    intro rs j hj
    exact absurd hj (List.not_mem_nil _)
  | cons a l ih =>
    intro rs j hj
    have h1 : adjustAll f rs (a :: l) = adjustAll f (adjust1 f rs a) l := rfl
    by_cases hjl : j ∈ l
    · rw [h1, ih _ _ hjl, adjust1_getElem?]
      rcases eq_or_ne a j with rfl | hne
      · rw [if_pos rfl]
        cases rs[a]? <;> simp [hf]
      · rw [if_neg hne]
    · have hja : j = a := by
        rcases List.mem_cons.mp hj with h | h
        · exact h
        · exact absurd h hjl
      subst hja
      rw [h1, adjustAll_getElem?_notMem f l _ _ hjl, adjust1_getElem?,
        if_pos rfl]

/-- No Invalidated entry for a request outside the monitor set can show
up in a poll cycle's immediate entries. -/
theorem invalidated_notMem_immediate (s2 : Sys) (ms2 : List Nat)
    (rid : Nat) (h : rid ∉ ms2) :
    PollEntry.invalidated rid ∉ immediateEntries s2 ms2 := by
  intro hmem
  unfold immediateEntries at hmem
  rcases List.mem_append.mp hmem with hl | hrr
  · rcases List.mem_map.mp hl with ⟨a, ha, heq⟩
    injection heq with h2
    subst h2
    exact h (List.mem_of_mem_filter ha)
  · rcases List.mem_flatMap.mp hrr with ⟨a, _, hmem2⟩
    rcases List.mem_map.mp hmem2 with ⟨ev, _, heq⟩
    exact PollEntry.noConfusion heq

/-- A poll over a monitor set not containing a request can never
deliver an Invalidated entry for that request. -/
theorem poll_done_no_invalidated (s2 : Sys) (ms2 : List Nat) (t2 : Nat)
    (sched2 : List (Nat × Bool)) (rid : Nat) (hrid : rid ∉ ms2)
    (entries2 : List PollEntry)
    (hres : (poll s2 ms2 t2 sched2).2.2.1 = PollResult.done entries2) :
    PollEntry.invalidated rid ∉ entries2 := by
  cases hE : immediateEntries s2 ms2 with
  | nil =>
    have hw : (waitLoop t2 sched2).1 = PollResult.done entries2 := by
      simpa [poll, hE] using hres
    rw [waitLoop_done_empty sched2 t2 entries2 hw]
    exact List.not_mem_nil _
  | cons a l =>
    have h3 : entries2 = a :: l := by
      simp [poll, hE] at hres
      exact hres.symm
    rw [h3, ← hE]
    exact invalidated_notMem_immediate _ _ _ hrid

/-- C2: once a monitored descriptor reports invalid status, the next
poll surfaces exactly one Invalidated entry for it, removes it from the
monitor set and marks the owning request closed; afterwards get_values
on any live handle to that request fails with Closed, and no later poll
on the resulting set ever reports that Invalidated entry again. -/
theorem claim_C2_invalidation (s : Sys) (ms : List Nat) (timeout : Nat)
    (sched : List (Nat × Bool)) (rid : Nat) (r0 : ReqState)
    (hms : ms.Nodup) (hmem : rid ∈ ms) (hinv : reqInvalid s rid = true)
    (hr : s.requests[rid]? = some r0) :
    (poll s ms timeout sched).2.2.1 =
      PollResult.done (immediateEntries s ms) ∧
    List.count (PollEntry.invalidated rid) (immediateEntries s ms) = 1 ∧
    rid ∉ (poll s ms timeout sched).2.1 ∧
    (poll s ms timeout sched).1.requests[rid]? = some (closeReq r0) ∧
    (∀ hid h, s.handles[hid]? = some h → h.reqId = rid →
      h.released = false →
      get_values (poll s ms timeout sched).1 hid =
        Except.error GpioError.closed) ∧
    (∀ t2 sched2 entries2,
      (poll (poll s ms timeout sched).1 (poll s ms timeout sched).2.1
          t2 sched2).2.2.1 = PollResult.done entries2 →
      PollEntry.invalidated rid ∉ entries2) := by
  have hinj : Function.Injective PollEntry.invalidated := by
    intro a b hab
    injection hab
  have hinvmem : rid ∈ ms.filter (fun x => reqInvalid s x) :=
    List.mem_filter.mpr ⟨hmem, hinv⟩
  have hcount : List.count (PollEntry.invalidated rid)
      (immediateEntries s ms) = 1 := by
    unfold immediateEntries
    rw [List.count_append]
    have hc1 : List.count (PollEntry.invalidated rid)
        ((ms.filter (fun x => reqInvalid s x)).map PollEntry.invalidated)
          = 1 := by
      rw [List.count_map_of_injective _ _ hinj]
      exact List.count_eq_one_of_mem (hms.filter _) hinvmem
    have hc2 : List.count (PollEntry.invalidated rid)
        ((ms.filter (fun x => !reqInvalid s x)).flatMap
          (fun x => (reqPending s x).map (PollEntry.event x))) = 0 := by
      rw [List.count_eq_zero]
      intro hmem2
      rcases List.mem_flatMap.mp hmem2 with ⟨a, _, hmem3⟩
      rcases List.mem_map.mp hmem3 with ⟨ev, _, heq⟩
      exact PollEntry.noConfusion heq
    rw [hc1, hc2]
  have hmemE : PollEntry.invalidated rid ∈ immediateEntries s ms := by
    unfold immediateEntries
    exact List.mem_append.mpr (Or.inl (List.mem_map.mpr ⟨rid, hinvmem, rfl⟩))
  have hne : (immediateEntries s ms).isEmpty = false := by
    cases hE : (immediateEntries s ms).isEmpty
    · rfl
    · rw [List.isEmpty_iff ] at hE
      rw [hE] at hmemE
      exact absurd hmemE (List.not_mem_nil _)
  have hpoll : poll s ms timeout sched =
      ({ s with requests := (clearPendingAll
          (markClosedAll s.requests (ms.filter (fun x => reqInvalid s x)))
          (ms.filter (fun x => !reqInvalid s x))) },
       ms.filter (fun x => !reqInvalid s x),
       PollResult.done (immediateEntries s ms), 0) := by
    simp only [poll, hne, Bool.false_eq_true, if_false]
  have hnotms1 : rid ∉ ms.filter (fun x => !reqInvalid s x) := by
    intro hmm
    have hb := (List.mem_filter.mp hmm).2
    rw [hinv] at hb
    simp at hb
  have hreqs : (poll s ms timeout sched).1.requests[rid]? =
      some (closeReq r0) := by
    rw [hpoll]
    show (clearPendingAll (markClosedAll s.requests
        (ms.filter (fun x => reqInvalid s x)))
        (ms.filter (fun x => !reqInvalid s x)))[rid]? = some (closeReq r0)
    unfold clearPendingAll markClosedAll
    rw [adjustAll_getElem?_notMem drainReq _ _ _ hnotms1,
      adjustAll_getElem?_mem closeReq (fun r => rfl) _ _ _ hinvmem, hr]
    rfl
  refine ⟨?_, hcount, ?_, hreqs, ?_, ?_⟩
  · rw [hpoll]
  · rw [hpoll]
    exact hnotms1
  · intro hid2 h2 hh2 hrid2 hrel2
    have hhandles : (poll s ms timeout sched).1.handles = s.handles := by
      rw [hpoll]
    simp [get_values, hhandles, hh2, hrel2, hrid2, hreqs, closeReq]
  · intro t2 sched2 entries2 hres
    have hms2 : rid ∉ (poll s ms timeout sched).2.1 := by
      rw [hpoll]
      exact hnotms1
    exact poll_done_no_invalidated _ _ _ _ _ hms2 _ hres

/-- C2 witness: in sysInv the single monitored descriptor reports
invalid status; the next poll evicts it from the set and get_values on
the surviving handle fails with Closed. -/
theorem claim_C2_witness :
    0 ∉ (poll sysInv [0] 5 []).2.1 ∧
    get_values (poll sysInv [0] 5 []).1 0 = Except.error GpioError.closed := by
  have h := claim_C2_invalidation sysInv [0] 5 [] 0
    { refCount := 1, fdOpen := true, closeCalls := 0, offsets := [0, 2],
      configs := [cfgOutHi, cfgOutHi], invalidFd := true, pending := [] }
    (by simp) (by simp) rfl rfl
  exact ⟨h.2.2.1, h.2.2.2.2.1 0
    { reqId := 0, offsets := [0, 2], released := false } rfl rfl rfl⟩

/-- Replacing one element of a list shifts the predicate count by the
difference between the old and the new element's contribution. -/
theorem countP_set_add (p : HandleState → Bool) (l : List HandleState) :
    ∀ (i : Nat) (a b : HandleState), l[i]? = some a →
      (l.set i b).countP p + (if p a then 1 else 0) =
        l.countP p + (if p b then 1 else 0) := by
  induction l with
  | nil =>
    intro i a b h
    simp at h
  | cons x xs ih =>
    intro i a b h
    cases i with
    | zero =>
      simp only [List.getElem?_cons_zero] at h
      injection h with h
      subst h
      rw [List.set_cons_zero, List.countP_cons, List.countP_cons]
      omega
    | succ n =>
      simp only [List.getElem?_cons_succ] at h
      rw [List.set_cons_succ, List.countP_cons, List.countP_cons]
      have h2 := ih n a b h
      omega

/-- Appending one handle adds its contribution to the live-handle
count. -/
theorem liveHandleCount_append (hs : List HandleState) (nh : HandleState)
    (rid : Nat) :
    liveHandleCount (hs ++ [nh]) rid =
      liveHandleCount hs rid +
        (if nh.reqId == rid && !nh.released then 1 else 0) := by
  unfold liveHandleCount
  rw [List.countP_append]
  congr 1
  rw [List.countP_cons, List.countP_nil]
  omega

/-- Replacing one handle shifts the live-handle count by the difference
of the two handles' contributions. -/
theorem liveHandleCount_set (hs : List HandleState) (i : Nat)
    (a b : HandleState) (h : hs[i]? = some a) (rid : Nat) :
    liveHandleCount (hs.set i b) rid +
        (if a.reqId == rid && !a.released then 1 else 0) =
      liveHandleCount hs rid +
        (if b.reqId == rid && !b.released then 1 else 0) :=
  countP_set_add _ hs i a b h

/-- A request id past every handle's request id has no live handles. -/
theorem liveHandleCount_eq_zero_of_bound (hs : List HandleState) (n : Nat)
    (hb : ∀ h ∈ hs, h.reqId < n) : liveHandleCount hs n = 0 := by
  unfold liveHandleCount
  rw [List.countP_eq_zero]
  intro h hmem
  simp only [Bool.and_eq_true, beq_iff_eq, Bool.not_eq_true']
  rintro ⟨heq, _⟩
  have := hb h hmem
  omega

/-- A live handle in the table witnesses a positive live-handle count
for its request. -/
theorem liveHandleCount_pos (hs : List HandleState) (i : Nat)
    (h : HandleState) (hh : hs[i]? = some h) (hrel : h.released = false) :
    0 < liveHandleCount hs h.reqId := by
  unfold liveHandleCount
  rw [List.countP_pos_iff]
  refine ⟨h, List.getElem?_mem hh, ?_⟩
  simp [hrel]

/-- The registry invariant survives request creation: the fresh request
starts with count 1 matching its single fresh handle, and existing
requests are untouched. -/
theorem refInv_request (s : Sys) (hinv : refInv s) (offs : List Nat)
    (cfgs : List LineConfig) : refInv (request s offs cfgs).1 := by
  obtain ⟨hb, hg⟩ := hinv
  simp only [request]
  repeat' split
  · exact ⟨hb, hg⟩
  · exact ⟨hb, hg⟩
  · exact ⟨hb, hg⟩
  · exact ⟨hb, hg⟩
  · exact ⟨hb, hg⟩
  · exact ⟨hb, hg⟩
  constructor
  · intro h hmem
    rcases List.mem_append.mp hmem with hold | hnew
    · have := hb h hold
      rw [List.length_append]
      omega
    · rw [List.mem_singleton] at hnew
      subst hnew
      rw [List.length_append]
      simp
  · intro rid r hr
    rw [List.getElem?_append] at hr
    by_cases hlt : rid < s.requests.length
    · rw [if_pos hlt] at hr
      have hgood := hg rid r hr
      rw [liveHandleCount_append]
      have hne : s.requests.length ≠ rid := by omega
      simpa [hne] using hgood
    · rw [if_neg hlt] at hr
      have hrid : rid = s.requests.length := by
        cases hd : rid - s.requests.length with
        | zero => omega
        | succ n =>
          rw [hd] at hr
          simp at hr
      subst hrid
      rw [Nat.sub_self] at hr
      simp only [List.getElem?_cons_zero] at hr
      injection hr with hr
      subst hr
      rw [liveHandleCount_append,
        liveHandleCount_eq_zero_of_bound s.handles _ hb]
      constructor
      · simp
      · constructor
        · simp
        · rfl

/-- The registry invariant survives clone: the cloned handle's request
gains one live handle and one count tick; other requests are
untouched. -/
theorem refInv_clone (s : Sys) (hinv : refInv s) (hid : Nat) :
    refInv (clone s hid).1 := by
  obtain ⟨hb, hg⟩ := hinv
  simp only [clone]
  split
  · exact ⟨hb, hg⟩
  · rename_i h hh
    split
    · exact ⟨hb, hg⟩
    · split
      · exact ⟨hb, hg⟩
      · rename_i r hr
        split
        · exact ⟨hb, hg⟩
        · rename_i hfd
          have hfd2 : r.fdOpen = true := by simpa using hfd
          have hreqlt : h.reqId < s.requests.length :=
            (List.getElem?_eq_some.mp hr).1
          constructor
          · intro h2 hmem
            rw [List.length_set]
            rcases List.mem_append.mp hmem with hold | hnew
            · exact hb h2 hold
            · rw [List.mem_singleton] at hnew
              subst hnew
              exact hb h (List.getElem?_mem hh)
          · intro rid r2 hr2
            rw [liveHandleCount_append]
            by_cases heq : h.reqId = rid
            · subst heq
              rw [List.getElem?_set_self hreqlt] at hr2
              injection hr2 with hr2
              subst hr2
              obtain ⟨hc, ho, hcc⟩ := hg h.reqId r hr
              refine ⟨?_, ?_, ?_⟩
              · simp [hc]
              · simp [hfd2]
              · rw [hcc, hfd2]
            · rw [List.getElem?_set_ne heq] at hr2
              simpa [heq] using hg rid r2 hr2

/-- The registry invariant survives derive, exactly like clone. -/
theorem refInv_derive (s : Sys) (hinv : refInv s) (rid : Nat)
    (subset : List Nat) : refInv (derive s rid subset).1 := by
  obtain ⟨hb, hg⟩ := hinv
  simp only [derive]
  split
  · exact ⟨hb, hg⟩
  · rename_i r hr
    split
    · exact ⟨hb, hg⟩
    · split
      · exact ⟨hb, hg⟩
      · rename_i hfd
        have hfd2 : r.fdOpen = true := by simpa using hfd
        have hreqlt : rid < s.requests.length :=
          (List.getElem?_eq_some.mp hr).1
        constructor
        · intro h2 hmem
          rw [List.length_set]
          rcases List.mem_append.mp hmem with hold | hnew
          · exact hb h2 hold
          · rw [List.mem_singleton] at hnew
            subst hnew
            exact hreqlt
        · intro rid2 r2 hr2
          rw [liveHandleCount_append]
          by_cases heq : rid = rid2
          · subst heq
            rw [List.getElem?_set_self hreqlt] at hr2
            injection hr2 with hr2
            subst hr2
            obtain ⟨hc, ho, hcc⟩ := hg rid r hr
            refine ⟨?_, ?_, ?_⟩
            · simp [hc]
            · simp [hfd2]
            · rw [hcc, hfd2]
          · rw [List.getElem?_set_ne heq] at hr2
            simpa [heq] using hg rid2 r2 hr2

/-- The registry invariant survives release: a live handle's request
loses one live handle and one count tick, the close happens exactly at
the transition to zero, and other requests are untouched. -/
theorem refInv_release (s : Sys) (hinv : refInv s) (hid : Nat) :
    refInv (release s hid).1 := by
  obtain ⟨hb, hg⟩ := hinv
  simp only [release]
  split
  · exact ⟨hb, hg⟩
  · rename_i h hh
    split
    · exact ⟨hb, hg⟩
    · rename_i hrel
      have hrel2 : h.released = false := by simpa using hrel
      split
      · rename_i hreq
        constructor
        · intro h2 hmem
          rcases List.mem_or_eq_of_mem_set hmem with hold | hnew
          · exact hb h2 hold
          · subst hnew
            exact hb h (List.getElem?_mem hh)
        · intro rid r2 hr2
          have hne : h.reqId ≠ rid := by
            intro hcontra
            rw [hcontra, hr2] at hreq
            exact Option.noConfusion hreq
          have hlc := liveHandleCount_set s.handles hid h
            { h with released := true } hh rid
          have hlive : liveHandleCount
              (s.handles.set hid { h with released := true }) rid =
              liveHandleCount s.handles rid := by
            simpa [hne] using hlc
          rw [hlive]
          exact hg rid r2 hr2
      · rename_i r hr
        have hreqlt : h.reqId < s.requests.length :=
          (List.getElem?_eq_some.mp hr).1
        obtain ⟨hc, ho, hcc⟩ := hg h.reqId r hr
        have hlcpos : 0 < liveHandleCount s.handles h.reqId :=
          liveHandleCount_pos s.handles hid h hh hrel2
        have hfd : r.fdOpen = true := ho.mpr (by omega)
        have hliveset : liveHandleCount
            (s.handles.set hid { h with released := true }) h.reqId =
            liveHandleCount s.handles h.reqId - 1 := by
          have hlc := liveHandleCount_set s.handles hid h
            { h with released := true } hh h.reqId
          simp [hrel2] at hlc
          omega
        constructor
        · intro h2 hmem
          rw [List.length_set]
          rcases List.mem_or_eq_of_mem_set hmem with hold | hnew
          · exact hb h2 hold
          · subst hnew
            exact hb h (List.getElem?_mem hh)
        · intro rid r2 hr2
          by_cases heq : h.reqId = rid
          · subst heq
            rw [List.getElem?_set_self hreqlt] at hr2
            injection hr2 with hr2
            subst hr2
            rw [hliveset, ← hc]
            by_cases hzero : r.refCount - 1 = 0
            · rw [if_pos hzero]
              refine ⟨hzero.symm ▸ rfl, ?_, ?_⟩
              · simp [hzero]
              · simp [hcc, hfd]
            · rw [if_neg hzero]
              refine ⟨rfl, ?_, ?_⟩
              · simp [hfd]
                omega
              · rw [hcc, hfd]
          · rw [List.getElem?_set_ne heq] at hr2
            have hlc := liveHandleCount_set s.handles hid h
              { h with released := true } hh rid
            have hlive : liveHandleCount
                (s.handles.set hid { h with released := true }) rid =
                liveHandleCount s.handles rid := by
              simpa [heq] using hlc
            rw [hlive]
            exact hg rid r2 hr2

/-- The registry invariant follows from its bounded form, which is
decidable on concrete states. -/
theorem refInv_intro (s : Sys)
    (h1 : ∀ h ∈ s.handles, h.reqId < s.requests.length)
    (h2 : ∀ rid, ∀ hl : rid < s.requests.length,
      reqGood (s.requests.get ⟨rid, hl⟩) (liveHandleCount s.handles rid)) :
    refInv s := by
  refine ⟨h1, ?_⟩
  intro rid r hr
  rcases List.getElem?_eq_some.mp hr with ⟨hlt, hget⟩
  have h3 := h2 rid hlt
  rw [List.get_eq_getElem, hget] at h3
  exact h3

/-- C1: under the registry invariant — which request, clone, derive and
release all preserve — the reference count always equals (hence is at
least) the number of live handles and never underflows: any release of
a live handle finds a positive count, succeeds, and decrements by one;
the descriptor stays open with no close issued while other handles
remain (count above one), and the release that brings the count to zero
closes the descriptor exactly once. -/
theorem claim_C1_refcount (s : Sys) (hinv : refInv s) :
    (∀ offs cfgs, refInv (request s offs cfgs).1) ∧
    (∀ hid, refInv (clone s hid).1) ∧
    (∀ rid subset, refInv (derive s rid subset).1) ∧
    (∀ hid, refInv (release s hid).1) ∧
    (∀ rid r, s.requests[rid]? = some r →
      liveHandleCount s.handles rid ≤ r.refCount) ∧
    (∀ hid h, s.handles[hid]? = some h → h.released = false →
      ∀ r, s.requests[h.reqId]? = some r →
        0 < r.refCount ∧
        (release s hid).2 = Except.ok () ∧
        (∀ r2, (release s hid).1.requests[h.reqId]? = some r2 →
          r2.refCount = r.refCount - 1 ∧
          (1 < r.refCount → r2.fdOpen = true ∧ r2.closeCalls = 0) ∧
          (r.refCount = 1 → r2.fdOpen = false ∧ r2.closeCalls = 1))) := by
  obtain ⟨hb, hg⟩ := hinv
  refine ⟨fun offs cfgs => refInv_request s ⟨hb, hg⟩ offs cfgs,
    fun hid => refInv_clone s ⟨hb, hg⟩ hid,
    fun rid subset => refInv_derive s ⟨hb, hg⟩ rid subset,
    fun hid => refInv_release s ⟨hb, hg⟩ hid, ?_, ?_⟩
  · intro rid r hr
    exact le_of_eq (hg rid r hr).1.symm
  · intro hid h hh hrel r hr
    obtain ⟨hc, ho, hcc⟩ := hg h.reqId r hr
    have hlcpos := liveHandleCount_pos s.handles hid h hh hrel
    have hpos : 0 < r.refCount := by omega
    have hfd : r.fdOpen = true := ho.mpr hpos
    have hreqlt : h.reqId < s.requests.length :=
      (List.getElem?_eq_some.mp hr).1
    refine ⟨hpos, ?_, ?_⟩
    · simp [release, hh, hrel, hr]
    · intro r2 hr2
      by_cases hone : r.refCount = 1
      · have hset : (release s hid).1.requests[h.reqId]? =
            some { r with refCount := 0, fdOpen := false, closeCalls := r.closeCalls + 1 } := by
          simp [release, hh, hrel, hr, hone, hfd,
            List.getElem?_set_self hreqlt]
        rw [hset] at hr2
        injection hr2 with hr2
        subst hr2
        refine ⟨by simp [hone], ?_, ?_⟩
        · intro hcontra
          omega
        · intro _
          refine ⟨rfl, ?_⟩
          simp [hfd, hcc]
      · have hnz : ¬r.refCount - 1 = 0 := by omega
        have hset : (release s hid).1.requests[h.reqId]? =
            some { r with refCount := r.refCount - 1 } := by
          simp [release, hh, hrel, hr, hnz,
            List.getElem?_set_self hreqlt]
        rw [hset] at hr2
        injection hr2 with hr2
        subst hr2
        refine ⟨rfl, ?_, ?_⟩
        · intro _
          refine ⟨hfd, ?_⟩
          simp [hcc, hfd]
        · intro hcontra
          exact absurd hcontra hone

/-- C1 witness: sysB satisfies the registry invariant (request plus one
clone, count 2, two live handles), and releasing one of its live
handles succeeds. -/
theorem claim_C1_witness :
    refInv sysB ∧ (release sysB 0).2 = Except.ok () := by
  have hinv : refInv sysB := refInv_intro sysB (by decide) (by decide)
  refine ⟨hinv, ?_⟩
  have h := (claim_C1_refcount sysB hinv).2.2.2.2.2 0
    { reqId := 0, offsets := [0, 2], released := false } rfl rfl
    { refCount := 2, fdOpen := true, closeCalls := 0, offsets := [0, 2],
      configs := [cfgOutHi, cfgOutHi], invalidFd := false, pending := [] }
    rfl
  exact h.2.1

end LibGpiod
